import Mathlib

/-!
# Verification of the Luxtronik Home Assistant integration wrapper

Shallow embedding of `custom_components/luxtronik/__init__.py`, the single
source file of the repository.  The file defines a wrapper class
`LuxtronikDevice` around a vendor device handle, guarding the handle's
protocol operations (`read`, `parameters.set`, `write`) with a single
`threading.Lock` acquired with a configurable timeout, plus a throttled
`update()` method, a `write()` method, and lock-free `get_value` lookups
into the handle's three in-memory tables.

The embedding has three layers:

* a pure layer for `get_value` / `get_sensor_by_id` / `get_sensor`,
  with Python's `str.split` and `list[i]` (`IndexError`) semantics made
  explicit via `Except`;
* a labelled transition system `Step` for interleaved `write()` /
  `update()` invocations, each method body being
  `acquire-with-timeout; device ops; finally: release`, with the lock
  modelled as Python's `threading.Lock` (no owner check on `release`,
  `release` of an unlocked lock raises `RuntimeError`); a ghost `owner`
  field records which thread's `acquire` succeeded last;
* a configuration layer for the voluptuous schema defaults and the
  throttle on `update()`.
-/

/-- A value held by a sensor of the device handle.  The service schema
(`vol.Any(cv.Number, cv.string)`) admits numbers and strings. -/
inductive Val where
  | num : Int → Val
  | str : String → Val
deriving DecidableEq

/-- A sensor object of the vendor `luxtronik` library; the wrapper only
reads its `value` attribute. -/
structure Sensor where
  value : Val
deriving DecidableEq

/-- Python exceptions relevant to the wrapper. -/
inductive PyErr where
  /-- Raised by `l[i]` when `i` is out of range. -/
  | indexError
  /-- Raised by `threading.Lock.release` on an unlocked lock. -/
  | runtimeError
  /-- Any exception escaping a device-handle call. -/
  | deviceError
deriving DecidableEq

instance {ε α : Type} [DecidableEq ε] [DecidableEq α] :
    DecidableEq (Except ε α) := fun a b =>
  match a, b with
  | Except.ok x, Except.ok y =>
      if h : x = y then isTrue (h ▸ rfl)
      else isFalse (fun hc => h (by cases hc; rfl))
  | Except.ok _, Except.error _ => isFalse (fun hc => Except.noConfusion hc)
  | Except.error _, Except.ok _ => isFalse (fun hc => Except.noConfusion hc)
  | Except.error e, Except.error f =>
      if h : e = f then isTrue (h ▸ rfl)
      else isFalse (fun hc => h (by cases hc; rfl))

/-- Python `dict.get`: `some` the stored value, `none` when absent.
A table of the device handle is modelled as an association list. -/
def dictGet (d : List (String × Sensor)) (k : String) : Option Sensor :=
  (d.find? (fun kv => kv.1 == k)).map Prod.snd

/-- Python `l[i]` on a list: the element, or `IndexError` out of range. -/
def pyIndex {α : Type} (l : List α) (i : Nat) : Except PyErr α :=
  match l[i]? with
  | some x => Except.ok x
  | none => Except.error PyErr.indexError

/-- Helper for `pySplit`: walk the characters, cutting at each separator;
`acc` holds the current field reversed. -/
def splitAux (sep : Char) : List Char → List Char → List String
  | [], acc => [String.mk acc.reverse]
  | c :: cs, acc =>
      if c = sep then String.mk acc.reverse :: splitAux sep cs []
      else splitAux sep cs (c :: acc)

/-- Python `s.split(sep)` for a one-character separator: e.g.
`"a.b".split('.') = ["a", "b"]`, `"x".split('.') = ["x"]`,
`"".split('.') = [""]`. -/
def pySplit (s : String) (sep : Char) : List String :=
  splitAux sep s.toList []

/-- Modelled from the spec: `CONF_PARAMETERS`, imported from `const.py`
which is not under `src/`; the spec names the three fixed categories
"parameters, calculations, visibilities". -/
def CONF_PARAMETERS : String := "parameters"

/-- Modelled from the spec: `CONF_CALCULATIONS` from `const.py` (not in
`src/`), the second of the three fixed categories. -/
def CONF_CALCULATIONS : String := "calculations"

/-- Modelled from the spec: `CONF_VISIBILITIES` from `const.py` (not in
`src/`), the third of the three fixed categories. -/
def CONF_VISIBILITIES : String := "visibilities"

/-- In-memory state of the vendor device handle (`Lux(host, port, safe)`):
the three lookup tables populated by `read()`. -/
structure DeviceState where
  parameters : List (String × Sensor)
  calculations : List (String × Sensor)
  visibilities : List (String × Sensor)
deriving DecidableEq

/-- The wrapper object: `self.lock` (held or not), the connection
configuration stored by `__init__`, and the device handle `_luxtronik`. -/
structure LuxtronikDevice where
  lock : Bool
  host : String
  port : Nat
  safe : Bool
  lock_timeout_sec : Nat
  luxtronik : DeviceState
deriving DecidableEq

/-- `LuxtronikDevice.get_sensor(group, sensor_id)`: three sequential
(non-`elif`) `if` statements over an initial `sensor = None`. -/
def LuxtronikDevice.get_sensor (self : LuxtronikDevice)
    (group sensor_id : String) : Option Sensor :=
  let sensor : Option Sensor := none
  let sensor := if group = CONF_PARAMETERS
    then dictGet self.luxtronik.parameters sensor_id else sensor
  let sensor := if group = CONF_CALCULATIONS
    then dictGet self.luxtronik.calculations sensor_id else sensor
  let sensor := if group = CONF_VISIBILITIES
    then dictGet self.luxtronik.visibilities sensor_id else sensor
  sensor

/-- `LuxtronikDevice.get_sensor_by_id(group_sensor_id)`:
`group = group_sensor_id.split('.')[0]`,
`sensor_id = group_sensor_id.split('.')[1]`, then `get_sensor`.
The index `[1]` raises `IndexError` when the identifier has no dot. -/
def LuxtronikDevice.get_sensor_by_id (self : LuxtronikDevice)
    (group_sensor_id : String) : Except PyErr (Option Sensor) := do
  let group ← pyIndex (pySplit group_sensor_id '.') 0
  let sensor_id ← pyIndex (pySplit group_sensor_id '.') 1
  Except.ok (self.get_sensor group sensor_id)

/-- `LuxtronikDevice.get_value(group_sensor_id)`: `None` when the sensor
is unknown, otherwise `sensor.value`; an exception from
`get_sensor_by_id` propagates. -/
def LuxtronikDevice.get_value (self : LuxtronikDevice)
    (group_sensor_id : String) : Except PyErr (Option Val) :=
  match self.get_sensor_by_id group_sensor_id with
  | Except.error e => Except.error e
  | Except.ok none => Except.ok none
  | Except.ok (some sensor) => Except.ok (some sensor.value)

/-- Observable side effects of a wrapper method on the lock and the
device handle. -/
inductive Event where
  | lockAcquire
  | lockRelease
  | devSet (parameter : String) (value : Val)
  | devWrite
  | devRead
deriving DecidableEq

/-- `get_value` in the uniform effectful signature used to state its
frame property: result, wrapper state after the call, and the emitted
lock/device events.  The body only performs the pure lookups of
`get_sensor_by_id`, so the state is threaded through unchanged and no
event is emitted. -/
def LuxtronikDevice.get_value_run (self : LuxtronikDevice)
    (group_sensor_id : String) :
    Except PyErr (Option Val) × LuxtronikDevice × List Event :=
  match self.get_sensor_by_id group_sensor_id with
  | Except.error e => (Except.error e, self, [])
  | Except.ok none => (Except.ok none, self, [])
  | Except.ok (some sensor) => (Except.ok (some sensor.value), self, [])

/-- A call on the device handle inside the lock-guarded region:
`_luxtronik.parameters.set(p, v)`, `_luxtronik.write()`,
`_luxtronik.read()`. -/
inductive DevOp where
  | set (parameter : String) (value : Val)
  | write
  | read
deriving DecidableEq

/-- The straight-line device-op sequence of the acquired branch of
`LuxtronikDevice.write`: `parameters.set(parameter, value)`, then
`self._luxtronik.write()`, then `if update_immediately_after_write:
self._luxtronik.read()`. -/
def writeOps (parameter : String) (value : Val)
    (update_immediately_after_write : Bool) : List DevOp :=
  DevOp.set parameter value :: DevOp.write ::
    (if update_immediately_after_write then [DevOp.read] else [])

/-- The device-op sequence of the acquired branch of
`LuxtronikDevice.update`: a single `self._luxtronik.read()`. -/
def updateOps : List DevOp := [DevOp.read]

/-- The shape shared by the two lock-guarded method bodies: the timeout
passed to `self.lock.acquire(blocking=True, timeout=...)` and the
device ops of the acquired branch. -/
structure Method where
  acquireTimeout : Nat
  ops : List DevOp
deriving DecidableEq

/-- The body of `LuxtronikDevice.write`: it acquires with
`timeout=self._lock_timeout_sec`. -/
def LuxtronikDevice.writeMethod (self : LuxtronikDevice)
    (parameter : String) (value : Val)
    (update_immediately_after_write : Bool) : Method :=
  { acquireTimeout := self.lock_timeout_sec
    ops := writeOps parameter value update_immediately_after_write }

/-- The body of `LuxtronikDevice.update`: it acquires with
`timeout=self._lock_timeout_sec`. -/
def LuxtronikDevice.updateMethod (self : LuxtronikDevice) : Method :=
  { acquireTimeout := self.lock_timeout_sec, ops := updateOps }

/-- Modelled from the spec: `DEFAULT_PORT` is defined in `const.py`,
which is not under `src/`; its exact value is irrelevant to the claims. -/
def DEFAULT_PORT : Nat := 8889

/-- A raw YAML configuration mapping for the `luxtronik:` domain before
schema validation: the `vol.Optional` keys may be absent. -/
structure RawConf where
  host : String
  port : Option Nat
  safe : Option Bool
  lock_timeout : Option Nat
  update_immediately_after_write : Option Bool
deriving DecidableEq

/-- A validated configuration, every key present. -/
structure Conf where
  host : String
  port : Nat
  safe : Bool
  lock_timeout : Nat
  update_immediately_after_write : Bool
deriving DecidableEq

/-- `CONFIG_SCHEMA`: `vol.Required(CONF_PORT, default=DEFAULT_PORT)`,
`vol.Optional(CONF_SAFE, default=True)`,
`vol.Optional(CONF_LOCK_TIMEOUT, default=30)`,
`vol.Optional(CONF_UPDATE_IMMEDIATELY_AFTER_WRITE, default=False)`. -/
def applySchema (raw : RawConf) : Conf :=
  { host := raw.host
    port := raw.port.getD DEFAULT_PORT
    safe := raw.safe.getD true
    lock_timeout := raw.lock_timeout.getD 30
    update_immediately_after_write :=
      raw.update_immediately_after_write.getD false }

/-- `setup_int(hass, conf)`: read the five configuration values and
construct `LuxtronikDevice(host, port, safe, lock_timeout)`.  `dev0` is
the initial in-memory state of the vendor handle `Lux(host, port, safe)`. -/
def setup_int (conf : Conf) (dev0 : DeviceState) : LuxtronikDevice :=
  { lock := false
    host := conf.host
    port := conf.port
    safe := conf.safe
    lock_timeout_sec := conf.lock_timeout
    luxtronik := dev0 }

/-- `MIN_TIME_BETWEEN_UPDATES = timedelta(seconds=60)`, the interval of
the `@Throttle` decorator on `LuxtronikDevice.update`. -/
def MIN_TIME_BETWEEN_UPDATES : Nat := 60

/-- Modelled from the spec: the external `@Throttle` decorator
(`homeassistant.util`, not part of this repository) wrapping
`LuxtronikDevice.update`; per the spec it makes the wrapped body execute
"at most once per fixed minimum interval regardless of call frequency".
`executedTimes interval last ts` maps the call times `ts` to the times
at which the throttled body actually runs, given that it last ran at
`last`: a call runs the body exactly when no earlier run exists or the
interval has elapsed since the last run. -/
def executedTimes (interval : Nat) : Option Nat → List Nat → List Nat
  | _, [] => []
  | none, t :: ts => t :: executedTimes interval (some t) ts
  | some l, t :: ts =>
      if l + interval ≤ t then t :: executedTimes interval (some t) ts
      else executedTimes interval (some l) ts

/-- Control state of one thread executing one `write()` or `update()`
invocation on the shared wrapper.  The phases follow the Python bodies:
`atAcquire` at `self.lock.acquire(blocking=True, timeout=...)`;
`running rest` inside the acquired branch with `rest` the device ops
still to perform; `busy op rest` inside the device call `op` (a device
call takes time, so it occupies two transitions, begin and end);
`timedOut` in the `else` branch after logging the warning; `pendingExc`
after a device call raised; `atRelease pending` at the
`finally: self.lock.release()` with `pending` the in-flight exception;
`done` returned normally; `raised e` terminated by propagating `e`. -/
inductive Phase where
  | atAcquire (ops : List DevOp)
  | running (rest : List DevOp)
  | busy (op : DevOp) (rest : List DevOp)
  | timedOut
  | pendingExc
  | atRelease (pending : Option PyErr)
  | done
  | raised (e : PyErr)
deriving DecidableEq

/-- Global state of the interleaving semantics: the shared
`threading.Lock` (`lock = true` when held — a `threading.Lock` records
no owner), a ghost `owner` field remembering which thread's `acquire`
succeeded last (for stating who holds the lock; Python keeps no such
record, which is why any thread's `release` succeeds on a held lock),
the per-thread phases, and the global log of begun device calls. -/
structure Sys where
  lock : Bool
  owner : Option Nat
  threads : List Phase
  trace : List (Nat × DevOp)
deriving DecidableEq

/-- One atomic step of thread `t`.  `acquire` with a timeout either
succeeds when the lock is free, or — when the lock is held, so the
timeout can elapse while waiting — gives up and takes the `else`
branch.  `release` on a held lock frees it whoever the owner is
(`threading.Lock` semantics); `release` on an unlocked lock raises
`RuntimeError`, which, raised inside the `finally`, replaces any
pending exception and propagates to the caller. -/
inductive Step : Nat → Sys → Sys → Prop where
  | acquireOk (t : Nat) {s : Sys} {ops : List DevOp}
      (hph : s.threads[t]? = some (Phase.atAcquire ops))
      (hl : s.lock = false) :
      Step t s { s with lock := true, owner := some t,
                        threads := s.threads.set t (Phase.running ops) }
  | acquireTimeout (t : Nat) {s : Sys} {ops : List DevOp}
      (hph : s.threads[t]? = some (Phase.atAcquire ops))
      (hl : s.lock = true) :
      Step t s { s with threads := s.threads.set t Phase.timedOut }
  | beginOp (t : Nat) {s : Sys} {op : DevOp} {rest : List DevOp}
      (hph : s.threads[t]? = some (Phase.running (op :: rest))) :
      Step t s { s with threads := s.threads.set t (Phase.busy op rest),
                        trace := s.trace ++ [(t, op)] }
  | endOp (t : Nat) {s : Sys} {op : DevOp} {rest : List DevOp}
      (hph : s.threads[t]? = some (Phase.busy op rest)) :
      Step t s { s with threads := s.threads.set t (Phase.running rest) }
  | opRaises (t : Nat) {s : Sys} {op : DevOp} {rest : List DevOp}
      (hph : s.threads[t]? = some (Phase.busy op rest)) :
      Step t s { s with threads := s.threads.set t Phase.pendingExc }
  | runDone (t : Nat) {s : Sys}
      (hph : s.threads[t]? = some (Phase.running [])) :
      Step t s { s with threads := s.threads.set t (Phase.atRelease none) }
  | timeoutToFinally (t : Nat) {s : Sys}
      (hph : s.threads[t]? = some Phase.timedOut) :
      Step t s { s with threads := s.threads.set t (Phase.atRelease none) }
  | excToFinally (t : Nat) {s : Sys}
      (hph : s.threads[t]? = some Phase.pendingExc) :
      Step t s { s with threads := s.threads.set t
                          (Phase.atRelease (some PyErr.deviceError)) }
  | releaseHeld (t : Nat) {s : Sys} {q : Option PyErr}
      (hph : s.threads[t]? = some (Phase.atRelease q))
      (hl : s.lock = true) :
      Step t s { s with lock := false, owner := none,
                        threads := s.threads.set t
                          (match q with
                           | none => Phase.done
                           | some e => Phase.raised e) }
  | releaseUnlocked (t : Nat) {s : Sys} {q : Option PyErr}
      (hph : s.threads[t]? = some (Phase.atRelease q))
      (hl : s.lock = false) :
      Step t s { s with threads := s.threads.set t
                          (Phase.raised PyErr.runtimeError) }

/-- A step by some thread. -/
def SysStep (s s' : Sys) : Prop := ∃ t, Step t s s'

/-- Reachability under interleaved execution. -/
def Reaches : Sys → Sys → Prop := Relation.ReflTransGen SysStep

/-- The initial state of a scenario: each thread about to run one
method invocation (its op list), the lock free and never acquired. -/
def initSys (progs : List (List DevOp)) : Sys :=
  { lock := false, owner := none,
    threads := progs.map Phase.atAcquire, trace := [] }

/-- Thread `t` is in the middle of a device-handle call. -/
def InFlight (s : Sys) (t : Nat) : Prop :=
  ∃ op rest, s.threads[t]? = some (Phase.busy op rest)

/-- Phases a thread can be in while it is the recorded owner of the
lock: strictly between its successful `acquire` and its `release`. -/
def activeOwnerPhase (ph : Phase) : Prop :=
  (∃ rest, ph = Phase.running rest) ∨
    (∃ op rest, ph = Phase.busy op rest) ∨
    ph = Phase.pendingExc ∨
    (∃ pending, ph = Phase.atRelease pending)

/-- Invariant tying the ghost `owner` to the lock and to the phases:
an unlocked lock has no owner, and the owner (when there is one) is a
thread strictly between its successful `acquire` and its `release`. -/
def LockInv (s : Sys) : Prop :=
  (s.lock = false → s.owner = none) ∧
    (∀ t, s.owner = some t →
      ∃ ph, s.threads[t]? = some ph ∧ activeOwnerPhase ph)

/-- Device ops of thread 0 as trace entries. -/
def traceOf (l : List DevOp) : List (Nat × DevOp) :=
  l.map (fun op => (0, op))

/-- Phase-indexed invariant of a single-threaded `write(p, v, upd)`
invocation (`lk` the lock, `tr` the trace): the trace is always the
performed prefix of the method body's op list, in order; `timedOut` is
unreachable without contention. -/
def WPhaseInv (p : String) (v : Val) (upd : Bool) (lk : Bool)
    (tr : List (Nat × DevOp)) : Phase → Prop
  | Phase.atAcquire ops =>
      ops = writeOps p v upd ∧ tr = [] ∧ lk = false
  | Phase.running rest =>
      lk = true ∧ ∃ pre, pre ++ rest = writeOps p v upd ∧ tr = traceOf pre
  | Phase.busy _ rest =>
      lk = true ∧ ∃ pre, pre ++ rest = writeOps p v upd ∧ tr = traceOf pre
  | Phase.timedOut => False
  | Phase.pendingExc =>
      lk = true ∧
        ∃ pre rest, pre ++ rest = writeOps p v upd ∧ tr = traceOf pre
  | Phase.atRelease none =>
      lk = true ∧ tr = traceOf (writeOps p v upd)
  | Phase.atRelease (some _) =>
      lk = true ∧
        ∃ pre rest, pre ++ rest = writeOps p v upd ∧ tr = traceOf pre
  | Phase.done => lk = false ∧ tr = traceOf (writeOps p v upd)
  | Phase.raised _ =>
      lk = false ∧
        ∃ pre rest, pre ++ rest = writeOps p v upd ∧ tr = traceOf pre

/-- Invariant of a single-threaded `write(p, v, upd)` invocation. -/
def WInv (p : String) (v : Val) (upd : Bool) (s : Sys) : Prop :=
  s.threads.length = 1 ∧
    ∀ ph, s.threads[0]? = some ph → WPhaseInv p v upd s.lock s.trace ph

/-- Scenario for the overlap counterexample: an `update()` caller and
two `write()` callers. -/
def overlapInit : Sys :=
  initSys [updateOps, writeOps "p" (Val.num 1) false,
    writeOps "q" (Val.num 2) false]

/-- Scenario for the propagated-`RuntimeError` counterexample: an
`update()` caller and one `write()` caller. -/
def timeoutErrInit : Sys :=
  initSys [updateOps, writeOps "p" (Val.num 1) false]

/-- A state in which thread 0 holds the lock inside its acquired branch
while thread 1 has just timed out waiting for it. -/
def c10s : Sys :=
  { lock := true, owner := some 0,
    threads := [Phase.running [], Phase.timedOut], trace := [] }

/-- The final state of an uncontended, exception-free `write("p", 1,
False)` call. -/
def c3fin : Sys :=
  { lock := false, owner := none, threads := [Phase.done],
    trace := [(0, DevOp.set "p" (Val.num 1)), (0, DevOp.write)] }

/-- The final state of an uncontended, exception-free `write("par", 5,
True)` call. -/
def c5fin : Sys :=
  { lock := false, owner := none, threads := [Phase.done],
    trace := [(0, DevOp.set "par" (Val.num 5)), (0, DevOp.write),
      (0, DevOp.read)] }

/-- The lookup described by the spec's words for `get_value`: select the
table named by the group tag — one of the three fixed categories — and
return the value stored under the sensor id, or the sentinel absence
when the group is not a category or the id is absent.  Stated as a
separate definition to compare with the code's `get_sensor` chain. -/
def specLookup (self : LuxtronikDevice) (group sensor_id : String) :
    Option Val :=
  if group = CONF_PARAMETERS then
    (dictGet self.luxtronik.parameters sensor_id).map Sensor.value
  else if group = CONF_CALCULATIONS then
    (dictGet self.luxtronik.calculations sensor_id).map Sensor.value
  else if group = CONF_VISIBILITIES then
    (dictGet self.luxtronik.visibilities sensor_id).map Sensor.value
  else none

/-- A concrete wrapper state used by the witnesses below. -/
def sampleDev : LuxtronikDevice :=
  { lock := false
    host := "192.168.1.5"
    port := 8889
    safe := true
    lock_timeout_sec := 30
    luxtronik :=
      { parameters := [("ID_Temp", ⟨Val.num 21⟩)]
        calculations := [("ID_Flow", ⟨Val.num 7⟩)]
        visibilities := [("ID_Vis", ⟨Val.num 1⟩)] } }

example : pySplit "a.b" '.' = ["a", "b"] := by decide
example : pySplit "nodot" '.' = ["nodot"] := by decide
example : pySplit "" '.' = [""] := by decide
example : pySplit "a.b.c" '.' = ["a", "b", "c"] := by decide
example : pySplit ".x" '.' = ["", "x"] := by decide

example : sampleDev.get_value "parameters.ID_Temp" =
    Except.ok (some (Val.num 21)) := by decide
example : sampleDev.get_value "calculations.ID_Flow" =
    Except.ok (some (Val.num 7)) := by decide
example : sampleDev.get_value "parameters.missing" = Except.ok none := by
  decide
example : sampleDev.get_value "bogus.ID_Temp" = Except.ok none := by decide
example : sampleDev.get_value "nodot" = Except.error PyErr.indexError := by
  decide

lemma conf_pc_ne : CONF_PARAMETERS ≠ CONF_CALCULATIONS := by decide

lemma conf_pv_ne : CONF_PARAMETERS ≠ CONF_VISIBILITIES := by decide

lemma conf_cv_ne : CONF_CALCULATIONS ≠ CONF_VISIBILITIES := by decide

/-- The code's `get_sensor` chain of three `if` statements computes the
spec's category-selected lookup. -/
lemma get_sensor_eq_specLookup (self : LuxtronikDevice)
    (group sensor_id : String) :
    (self.get_sensor group sensor_id).map Sensor.value =
      specLookup self group sensor_id := by
  unfold LuxtronikDevice.get_sensor specLookup
  split_ifs <;>
    simp_all [CONF_PARAMETERS, CONF_CALCULATIONS, CONF_VISIBILITIES]

/-- For a dotted identifier, `get_sensor_by_id` succeeds with the first
field as group and the second field as sensor id. -/
lemma get_sensor_by_id_dotted (self : LuxtronikDevice) (s g sid : String)
    (rest : List String) (h : pySplit s '.' = g :: sid :: rest) :
    self.get_sensor_by_id s = Except.ok (self.get_sensor g sid) := by
  unfold LuxtronikDevice.get_sensor_by_id
  rw [h]
  simp only [pyIndex, List.getElem?_cons_zero, List.getElem?_cons_succ]
  rfl

/-- C4, counterexample: the claim quantifies over every identifier
string, but on an identifier without a dot `get_value` raises
`IndexError` (from `split('.')[1]`) instead of returning a looked-up
value or the sentinel `None`. -/
theorem get_value_c4_counterexample :
    sampleDev.get_value "ID_Temp" = Except.error PyErr.indexError := by
  decide

/-- C4 (corrected; amended to identifiers containing a dot): for every
identifier string with at least one dot, `get_value` takes the first
dot-separated field as the group tag and the second as the sensor id,
looks the sensor id up in exactly the table selected by the group tag
(one of the three fixed categories), and returns the looked-up value,
or `None` when the group is not one of the three categories or the
sensor id is not present in the selected table — i.e. it computes the
spec's category-selected lookup `specLookup`. -/
theorem get_value_dotted (self : LuxtronikDevice) (s g sid : String)
    (rest : List String) (h : pySplit s '.' = g :: sid :: rest) :
    self.get_value s = Except.ok (specLookup self g sid) := by
  unfold LuxtronikDevice.get_value
  rw [get_sensor_by_id_dotted self s g sid rest h,
    ← get_sensor_eq_specLookup self g sid]
  cases self.get_sensor g sid <;> rfl

/-- Witness for C4's amended theorem at a concrete dotted identifier. -/
theorem get_value_dotted_witness :
    pySplit "parameters.ID_Temp" '.' = ["parameters", "ID_Temp"] ∧
      sampleDev.get_value "parameters.ID_Temp" =
        Except.ok (specLookup sampleDev "parameters" "ID_Temp") :=
  ⟨by decide,
   get_value_dotted sampleDev "parameters.ID_Temp" "parameters" "ID_Temp"
     [] (by decide)⟩

/-- A character list without the separator splits into a single field. -/
lemma splitAux_no_sep (sep : Char) (l acc : List Char)
    (h : sep ∉ l) : splitAux sep l acc = [String.mk (acc.reverse ++ l)] := by
  induction l generalizing acc with
  | nil => simp [splitAux]
  | cons c cs ih =>
      have hc : c ≠ sep := fun he => h (he ▸ List.mem_cons_self c cs)
      have hcs : sep ∉ cs := fun hm => h (List.mem_cons_of_mem c hm)
      simp [splitAux, hc, ih (c :: acc) hcs]

/-- C9 (confirmed): for every identifier string containing no dot,
`get_value` — through `get_sensor_by_id`, which indexes
`split('.')[1]` — raises `IndexError` instead of returning the `None`
sentinel: the malformed-identifier error branch is reachable at the
public interface. -/
theorem get_value_no_dot_raises (self : LuxtronikDevice) (s : String)
    (h : '.' ∉ s.toList) :
    self.get_value s = Except.error PyErr.indexError := by
  have hsplit : pySplit s '.' = [String.mk s.toList] := by
    simpa using splitAux_no_sep '.' s.toList [] h
  unfold LuxtronikDevice.get_value LuxtronikDevice.get_sensor_by_id
  rw [hsplit]
  rfl

/-- Witness for C9 at a concrete dotless identifier. -/
theorem get_value_no_dot_raises_witness :
    '.' ∉ "ID_Temperature".toList ∧
      sampleDev.get_value "ID_Temperature" =
        Except.error PyErr.indexError :=
  ⟨by decide, get_value_no_dot_raises sampleDev "ID_Temperature" (by decide)⟩

/-- C6 (confirmed): `get_value` performs no lock acquisition and mutates
neither the wrapper's state nor the device handle's state: in the
uniform effectful signature it returns the wrapper state unchanged
(hence the handle's tables unchanged) and emits no lock or device
event. -/
theorem get_value_frame (self : LuxtronikDevice) (gsid : String) :
    (self.get_value_run gsid).2.1 = self ∧
      (self.get_value_run gsid).2.2 = ([] : List Event) := by
  unfold LuxtronikDevice.get_value_run
  rcases h : self.get_sensor_by_id gsid with e | o
  · simp
  · cases o <;> simp

/-- C7 (confirmed): the lock-acquisition timeout is one configuration
value, defaulting to 30 when absent from the raw configuration, and
both method bodies pass exactly this configured value to
`lock.acquire`. -/
theorem lock_timeout_configured (raw : RawConf) (dev0 : DeviceState)
    (p : String) (v : Val) (u : Bool) :
    (applySchema raw).lock_timeout =
        (match raw.lock_timeout with | none => 30 | some n => n) ∧
      ((setup_int (applySchema raw) dev0).writeMethod p v u).acquireTimeout =
        (applySchema raw).lock_timeout ∧
      (setup_int (applySchema raw) dev0).updateMethod.acquireTimeout =
        (applySchema raw).lock_timeout := by
  refine ⟨?_, rfl, rfl⟩
  rcases raw with ⟨h, po, sa, lt, ui⟩
  cases lt <;> rfl

/-- Every execution time of the throttled body, starting from a last
run at `l`, is at least one interval after `l`. -/
lemma executedTimes_lb (interval : Nat) (ts : List Nat) (l u : Nat)
    (h : u ∈ executedTimes interval (some l) ts) : l + interval ≤ u := by
  induction ts generalizing l with
  | nil => simp [executedTimes] at h
  | cons t ts ih =>
      by_cases ht : l + interval ≤ t
      · rw [executedTimes, if_pos ht] at h
        rcases List.mem_cons.mp h with he | hm
        · exact he ▸ ht
        · have h2 := ih t hm
          omega
      · rw [executedTimes, if_neg ht] at h
        exact ih l h

/-- Starting from a last run at `l`, consecutive executions of the
throttled body are at least one interval apart. -/
lemma executedTimes_chain (interval : Nat) (ts : List Nat) (l : Nat) :
    (executedTimes interval (some l) ts).Chain'
      (fun a b => a + interval ≤ b) := by
  induction ts generalizing l with
  | nil => simp [executedTimes]
  | cons t ts ih =>
      by_cases ht : l + interval ≤ t
      · rw [executedTimes, if_pos ht]
        refine List.chain'_cons'.mpr ⟨?_, ih t⟩
        intro u hu
        exact executedTimes_lb interval ts t u
          (List.mem_of_mem_head? hu)
      · rw [executedTimes, if_neg ht]
        exact ih l

/-- C8 (confirmed): the body of the throttled `update()` executes at
most once per `MIN_TIME_BETWEEN_UPDATES` (60 time-units): however
frequently `update()` is called (any list `ts` of call times), any two
consecutive executions of the body are at least 60 apart. -/
theorem update_throttle_spacing (ts : List Nat) :
    (executedTimes MIN_TIME_BETWEEN_UPDATES none ts).Chain'
      (fun a b => a + MIN_TIME_BETWEEN_UPDATES ≤ b) := by
  cases ts with
  | nil => simp [executedTimes]
  | cons t ts =>
      rw [executedTimes]
      refine List.chain'_cons'.mpr ⟨?_, executedTimes_chain _ ts t⟩
      intro u hu
      exact executedTimes_lb MIN_TIME_BETWEEN_UPDATES ts t u
        (List.mem_of_mem_head? hu)

/-- C10 (confirmed): in both `write()` and `update()` the `finally`
block calls `lock.release()` unconditionally, including on the branch
where acquisition timed out.  A timed-out caller `t` (one that is not
the recorded owner) therefore, by its own next steps: if the lock is
held, releases the other caller's lock and returns; if the lock is by
then unlocked, raises `RuntimeError`. -/
theorem timed_out_caller_release (s : Sys) (t : Nat)
    (hph : s.threads[t]? = some Phase.timedOut)
    (hown : s.owner ≠ some t) :
    (s.lock = true →
      ∃ s', Relation.ReflTransGen (Step t) s s' ∧ s'.lock = false ∧
        s'.owner = none ∧ s'.threads[t]? = some Phase.done) ∧
    (s.lock = false →
      ∃ s', Relation.ReflTransGen (Step t) s s' ∧ s'.lock = false ∧
        s'.threads[t]? = some (Phase.raised PyErr.runtimeError)) := by
  have htlen : t < s.threads.length := (List.getElem?_eq_some.mp hph).1
  have step1 : Step t s
      { s with threads := s.threads.set t (Phase.atRelease none) } :=
    Step.timeoutToFinally t hph
  have hph1 : (s.threads.set t (Phase.atRelease none))[t]? =
      some (Phase.atRelease none) :=
    List.getElem?_set_eq_of_lt _ htlen
  have htlen1 : t < (s.threads.set t (Phase.atRelease none)).length := by
    simpa using htlen
  constructor
  · intro hl
    have step2 : Step t
        { s with threads := s.threads.set t (Phase.atRelease none) }
        { s with lock := false, owner := none,
                 threads := (s.threads.set t (Phase.atRelease none)).set t
                   Phase.done } :=
      Step.releaseHeld t
        (s := { s with threads := s.threads.set t (Phase.atRelease none) })
        hph1 hl
    exact ⟨_, Relation.ReflTransGen.head step1
        (Relation.ReflTransGen.single step2), rfl, rfl,
      List.getElem?_set_eq_of_lt _ htlen1⟩
  · intro hl
    have step2 : Step t
        { s with threads := s.threads.set t (Phase.atRelease none) }
        { s with threads := (s.threads.set t (Phase.atRelease none)).set t
                   (Phase.raised PyErr.runtimeError) } :=
      Step.releaseUnlocked t
        (s := { s with threads := s.threads.set t (Phase.atRelease none) })
        hph1 hl
    exact ⟨_, Relation.ReflTransGen.head step1
        (Relation.ReflTransGen.single step2), hl,
      List.getElem?_set_eq_of_lt _ htlen1⟩

/-- Witness for C10: in the concrete state `c10s` — thread 0 owns the
lock, thread 1 timed out — thread 1's own next steps free thread 0's
lock and finish thread 1 normally. -/
theorem timed_out_caller_release_witness :
    c10s.threads[1]? = some Phase.timedOut ∧ c10s.owner ≠ some 1 ∧
      ∃ s', Relation.ReflTransGen (Step 1) c10s s' ∧ s'.lock = false ∧
        s'.owner = none ∧ s'.threads[1]? = some Phase.done :=
  ⟨rfl, by decide,
    (timed_out_caller_release c10s 1 rfl (by decide)).1 rfl⟩

/-- C1 (code bug): the lock does not prevent the device-handle calls of
two callers from overlapping.  From `overlapInit`, thread 0 (`update`)
acquires and starts its device read; thread 1 (`write`) times out and
its unconditional `finally: release` frees thread 0's lock; thread 2
(`write`) then acquires and starts `parameters.set` while thread 0 is
still inside `read`: two in-flight protocol operations at once. -/
theorem lock_fails_to_prevent_overlap :
    ∃ s : Sys, Reaches overlapInit s ∧ InFlight s 0 ∧ InFlight s 2 := by
  refine ⟨{ lock := true, owner := some 2,
            threads := [Phase.busy DevOp.read [], Phase.done,
              Phase.busy (DevOp.set "q" (Val.num 2)) [DevOp.write]],
            trace := [(0, DevOp.read),
              (2, DevOp.set "q" (Val.num 2))] }, ?_,
    ⟨DevOp.read, [], rfl⟩,
    ⟨DevOp.set "q" (Val.num 2), [DevOp.write], rfl⟩⟩
  refine Relation.ReflTransGen.head ⟨0, Step.acquireOk 0 rfl rfl⟩ ?_
  refine Relation.ReflTransGen.head ⟨0, Step.beginOp 0 rfl⟩ ?_
  refine Relation.ReflTransGen.head ⟨1, Step.acquireTimeout 1 rfl rfl⟩ ?_
  refine Relation.ReflTransGen.head ⟨1, Step.timeoutToFinally 1 rfl⟩ ?_
  have h5 : Step 1
      { lock := true, owner := some 0,
        threads := [Phase.busy DevOp.read [], Phase.atRelease none,
          Phase.atAcquire [DevOp.set "q" (Val.num 2), DevOp.write]],
        trace := [(0, DevOp.read)] }
      { lock := false, owner := none,
        threads := [Phase.busy DevOp.read [], Phase.done,
          Phase.atAcquire [DevOp.set "q" (Val.num 2), DevOp.write]],
        trace := [(0, DevOp.read)] } :=
    Step.releaseHeld 1
      (s := { lock := true, owner := some 0,
              threads := [Phase.busy DevOp.read [], Phase.atRelease none,
                Phase.atAcquire [DevOp.set "q" (Val.num 2), DevOp.write]],
              trace := [(0, DevOp.read)] })
      (q := none) rfl rfl
  refine Relation.ReflTransGen.head ⟨1, h5⟩ ?_
  refine Relation.ReflTransGen.head ⟨2, Step.acquireOk 2 rfl rfl⟩ ?_
  refine Relation.ReflTransGen.head ⟨2, Step.beginOp 2 rfl⟩ ?_
  exact Relation.ReflTransGen.refl

/-- C2 (code bug): a lock-acquisition timeout does not always degrade
to a skipped operation without a propagated error.  From
`timeoutErrInit`, thread 1's `write` times out while thread 0 holds the
lock; thread 0 then finishes and releases; thread 1's unconditional
`finally: release` now executes on an unlocked lock and raises
`RuntimeError`, which propagates to `write`'s caller. -/
theorem write_timeout_error_propagates :
    ∃ s : Sys, Reaches timeoutErrInit s ∧
      s.threads[1]? = some (Phase.raised PyErr.runtimeError) ∧
      s.trace = [(0, DevOp.read)] := by
  refine ⟨{ lock := false, owner := none,
            threads := [Phase.done, Phase.raised PyErr.runtimeError],
            trace := [(0, DevOp.read)] }, ?_, rfl, rfl⟩
  refine Relation.ReflTransGen.head ⟨0, Step.acquireOk 0 rfl rfl⟩ ?_
  refine Relation.ReflTransGen.head ⟨1, Step.acquireTimeout 1 rfl rfl⟩ ?_
  refine Relation.ReflTransGen.head ⟨1, Step.timeoutToFinally 1 rfl⟩ ?_
  refine Relation.ReflTransGen.head ⟨0, Step.beginOp 0 rfl⟩ ?_
  refine Relation.ReflTransGen.head ⟨0, Step.endOp 0 rfl⟩ ?_
  refine Relation.ReflTransGen.head ⟨0, Step.runDone 0 rfl⟩ ?_
  have h7 : Step 0
      { lock := true, owner := some 0,
        threads := [Phase.atRelease none, Phase.atRelease none],
        trace := [(0, DevOp.read)] }
      { lock := false, owner := none,
        threads := [Phase.done, Phase.atRelease none],
        trace := [(0, DevOp.read)] } :=
    Step.releaseHeld 0
      (s := { lock := true, owner := some 0,
              threads := [Phase.atRelease none, Phase.atRelease none],
              trace := [(0, DevOp.read)] })
      (q := none) rfl rfl
  refine Relation.ReflTransGen.head ⟨0, h7⟩ ?_
  refine Relation.ReflTransGen.head ⟨1, Step.releaseUnlocked 1 (q := none) rfl rfl⟩ ?_
  exact Relation.ReflTransGen.refl

lemma not_active_atAcquire (ops : List DevOp) :
    ¬ activeOwnerPhase (Phase.atAcquire ops) := by
  rintro (⟨r, hh⟩ | ⟨o, r, hh⟩ | hh | ⟨q, hh⟩) <;> exact Phase.noConfusion hh

lemma not_active_timedOut : ¬ activeOwnerPhase Phase.timedOut := by
  rintro (⟨r, hh⟩ | ⟨o, r, hh⟩ | hh | ⟨q, hh⟩) <;> exact Phase.noConfusion hh

lemma not_active_done : ¬ activeOwnerPhase Phase.done := by
  rintro (⟨r, hh⟩ | ⟨o, r, hh⟩ | hh | ⟨q, hh⟩) <;> exact Phase.noConfusion hh

lemma not_active_raised (e : PyErr) :
    ¬ activeOwnerPhase (Phase.raised e) := by
  rintro (⟨r, hh⟩ | ⟨o, r, hh⟩ | hh | ⟨q, hh⟩) <;> exact Phase.noConfusion hh

lemma lockInv_init (progs : List (List DevOp)) : LockInv (initSys progs) :=
  ⟨fun _ => rfl, fun _ hu => Option.noConfusion hu⟩

/-- Updating the phase of a thread to an owner-compatible phase
preserves `LockInv`. -/
lemma lockInv_set_active {s : Sys} {t : Nat} (hinv : LockInv s)
    (ph' : Phase) (hact : activeOwnerPhase ph') :
    LockInv { s with threads := s.threads.set t ph' } := by
  obtain ⟨h1, h2⟩ := hinv
  refine ⟨h1, fun u hu => ?_⟩
  obtain ⟨ph, hq, hold⟩ := h2 u hu
  by_cases he : t = u
  · subst he
    have hlt : t < s.threads.length := (List.getElem?_eq_some.mp hq).1
    exact ⟨ph', List.getElem?_set_eq_of_lt _ hlt, hact⟩
  · exact ⟨ph, by rw [List.getElem?_set_ne he]; exact hq, hold⟩

/-- Updating the phase of a thread that cannot be the owner preserves
`LockInv`. -/
lemma lockInv_set_inactive {s : Sys} {t : Nat} (ph' : Phase)
    (hinv : LockInv s)
    (hne : ∀ ph, s.threads[t]? = some ph → ¬ activeOwnerPhase ph) :
    LockInv { s with threads := s.threads.set t ph' } := by
  obtain ⟨h1, h2⟩ := hinv
  refine ⟨h1, fun u hu => ?_⟩
  obtain ⟨ph, hq, hold⟩ := h2 u hu
  have he : t ≠ u := fun heq => hne ph (heq ▸ hq) hold
  exact ⟨ph, by rw [List.getElem?_set_ne he]; exact hq, hold⟩

/-- Every step of any thread preserves `LockInv`. -/
lemma lockInv_step {t : Nat} {s s' : Sys} (h : Step t s s')
    (hinv : LockInv s) : LockInv s' := by
  cases h with
  | acquireOk hph hl =>
      refine ⟨fun hf => Bool.noConfusion hf, fun u hu => ?_⟩
      obtain rfl : t = u := Option.some.inj hu
      have hlt : t < s.threads.length := (List.getElem?_eq_some.mp hph).1
      exact ⟨_, List.getElem?_set_eq_of_lt _ hlt, Or.inl ⟨_, rfl⟩⟩
  | acquireTimeout hph hl =>
      refine lockInv_set_inactive _ hinv (fun ph hq => ?_)
      rw [hph] at hq
      obtain rfl := Option.some.inj hq
      exact not_active_atAcquire _
  | beginOp hph =>
      exact lockInv_set_active hinv _ (Or.inr (Or.inl ⟨_, _, rfl⟩))
  | endOp hph =>
      exact lockInv_set_active hinv _ (Or.inl ⟨_, rfl⟩)
  | opRaises hph =>
      exact lockInv_set_active hinv _ (Or.inr (Or.inr (Or.inl rfl)))
  | runDone hph =>
      exact lockInv_set_active hinv _
        (Or.inr (Or.inr (Or.inr ⟨none, rfl⟩)))
  | timeoutToFinally hph =>
      refine lockInv_set_inactive _ hinv (fun ph hq => ?_)
      rw [hph] at hq
      obtain rfl := Option.some.inj hq
      exact not_active_timedOut
  | excToFinally hph =>
      exact lockInv_set_active hinv _
        (Or.inr (Or.inr (Or.inr ⟨some PyErr.deviceError, rfl⟩)))
  | releaseHeld hph hl =>
      exact ⟨fun _ => rfl, fun u hu => Option.noConfusion hu⟩
  | releaseUnlocked hph hl =>
      have hnone : s.owner = none := hinv.1 hl
      refine ⟨fun _ => hnone, fun u hu => ?_⟩
      rw [hnone] at hu
      exact Option.noConfusion hu

/-- `LockInv` holds in every reachable state. -/
lemma lockInv_reaches {s s' : Sys} (h : Reaches s s') (hinv : LockInv s) :
    LockInv s' := by
  induction h with
  | refl => exact hinv
  | tail hpre hstep ih =>
      obtain ⟨u, hu⟩ := hstep
      exact lockInv_step hu ih

/-- C3 (confirmed): `write()` releases the lock on every exit path: in
any interleaving of `write()` invocations, once a caller `t` has
finished — returned normally (`done`) or by propagating an exception
(`raised`), covering success, lock timeout, and exceptions during the
parameter set, the flush or the follow-up read — thread `t` does not
hold the lock: the lock is free or owned by some other caller. -/
theorem write_releases_lock_on_all_paths
    (calls : List (String × Val × Bool)) (s : Sys) (t : Nat)
    (hr : Reaches (initSys (calls.map
      (fun c => writeOps c.1 c.2.1 c.2.2))) s)
    (hfin : s.threads[t]? = some Phase.done ∨
      ∃ e, s.threads[t]? = some (Phase.raised e)) :
    ¬ (s.lock = true ∧ s.owner = some t) := by
  rintro ⟨hl, how⟩
  have hinv := lockInv_reaches hr (lockInv_init _)
  obtain ⟨ph, hq, hact⟩ := hinv.2 t how
  rcases hfin with hdone | ⟨e, hraised⟩
  · rw [hdone] at hq
    obtain rfl := Option.some.inj hq
    exact not_active_done hact
  · rw [hraised] at hq
    obtain rfl := Option.some.inj hq
    exact not_active_raised e hact

/-- Witness for C3: a complete uncontended `write("p", 1, False)` call
reaches `c3fin` with the caller finished, and the caller does not hold
the lock there. -/
theorem write_releases_lock_on_all_paths_witness :
    c3fin.threads[0]? = some Phase.done ∧
      ¬ (c3fin.lock = true ∧ c3fin.owner = some 0) := by
  refine ⟨rfl, write_releases_lock_on_all_paths
    [("p", Val.num 1, false)] c3fin 0 ?_ (Or.inl rfl)⟩
  refine Relation.ReflTransGen.head ⟨0, Step.acquireOk 0 rfl rfl⟩ ?_
  refine Relation.ReflTransGen.head ⟨0, Step.beginOp 0 rfl⟩ ?_
  refine Relation.ReflTransGen.head ⟨0, Step.endOp 0 rfl⟩ ?_
  refine Relation.ReflTransGen.head ⟨0, Step.beginOp 0 rfl⟩ ?_
  refine Relation.ReflTransGen.head ⟨0, Step.endOp 0 rfl⟩ ?_
  refine Relation.ReflTransGen.head ⟨0, Step.runDone 0 rfl⟩ ?_
  have hrel : Step 0
      { lock := true, owner := some 0, threads := [Phase.atRelease none],
        trace := [(0, DevOp.set "p" (Val.num 1)), (0, DevOp.write)] }
      c3fin :=
    Step.releaseHeld 0
      (s := { lock := true, owner := some 0,
              threads := [Phase.atRelease none],
              trace := [(0, DevOp.set "p" (Val.num 1)),
                (0, DevOp.write)] })
      (q := none) rfl rfl
  exact Relation.ReflTransGen.single ⟨0, hrel⟩

lemma wInv_init (p : String) (v : Val) (upd : Bool) :
    WInv p v upd (initSys [writeOps p v upd]) := by
  refine ⟨rfl, fun ph hq => ?_⟩
  obtain rfl := Option.some.inj hq
  exact ⟨rfl, rfl, rfl⟩

/-- Every step of the single-threaded `write` scenario preserves
`WInv`. -/
lemma wInv_step {p : String} {v : Val} {upd : Bool} {t : Nat}
    {s s' : Sys} (h : Step t s s') (hinv : WInv p v upd s) :
    WInv p v upd s' := by
  obtain ⟨hlen, hrest⟩ := hinv
  cases h with
  | acquireOk hph hl =>
      have ht0 : t = 0 := by
        have := (List.getElem?_eq_some.mp hph).1; omega
      subst ht0
      obtain ⟨hops, htr, _⟩ := hrest _ hph
      subst hops
      refine ⟨by simpa using hlen, fun ph hq => ?_⟩
      rw [List.getElem?_set_eq_of_lt _ (by omega)] at hq
      obtain rfl := Option.some.inj hq
      exact ⟨rfl, ⟨[], rfl, by rw [htr]; rfl⟩⟩
  | acquireTimeout hph hl =>
      have ht0 : t = 0 := by
        have := (List.getElem?_eq_some.mp hph).1; omega
      subst ht0
      obtain ⟨_, _, hlk⟩ := hrest _ hph
      exact absurd (hl.symm.trans hlk) (by simp)
  | beginOp hph =>
      rename_i op rest
      have ht0 : t = 0 := by
        have := (List.getElem?_eq_some.mp hph).1; omega
      subst ht0
      obtain ⟨hlk, pre, hpre, htr⟩ := hrest _ hph
      refine ⟨by simpa using hlen, fun ph hq => ?_⟩
      rw [List.getElem?_set_eq_of_lt _ (by omega)] at hq
      obtain rfl := Option.some.inj hq
      refine ⟨hlk, ⟨pre ++ [op], ?_, ?_⟩⟩
      · rw [List.append_assoc]
        simpa using hpre
      · rw [htr]
        simp [traceOf]
  | endOp hph =>
      have ht0 : t = 0 := by
        have := (List.getElem?_eq_some.mp hph).1; omega
      subst ht0
      obtain ⟨hlk, pre, hpre, htr⟩ := hrest _ hph
      refine ⟨by simpa using hlen, fun ph hq => ?_⟩
      rw [List.getElem?_set_eq_of_lt _ (by omega)] at hq
      obtain rfl := Option.some.inj hq
      exact ⟨hlk, ⟨pre, hpre, htr⟩⟩
  | opRaises hph =>
      have ht0 : t = 0 := by
        have := (List.getElem?_eq_some.mp hph).1; omega
      subst ht0
      obtain ⟨hlk, pre, hpre, htr⟩ := hrest _ hph
      refine ⟨by simpa using hlen, fun ph hq => ?_⟩
      rw [List.getElem?_set_eq_of_lt _ (by omega)] at hq
      obtain rfl := Option.some.inj hq
      exact ⟨hlk, ⟨pre, _, hpre, htr⟩⟩
  | runDone hph =>
      have ht0 : t = 0 := by
        have := (List.getElem?_eq_some.mp hph).1; omega
      subst ht0
      obtain ⟨hlk, pre, hpre, htr⟩ := hrest _ hph
      refine ⟨by simpa using hlen, fun ph hq => ?_⟩
      rw [List.getElem?_set_eq_of_lt _ (by omega)] at hq
      obtain rfl := Option.some.inj hq
      refine ⟨hlk, ?_⟩
      rw [htr, show pre = writeOps p v upd from by simpa using hpre]
  | timeoutToFinally hph =>
      have ht0 : t = 0 := by
        have := (List.getElem?_eq_some.mp hph).1; omega
      subst ht0
      exact absurd (hrest _ hph) (fun x => x)
  | excToFinally hph =>
      have ht0 : t = 0 := by
        have := (List.getElem?_eq_some.mp hph).1; omega
      subst ht0
      obtain ⟨hlk, pre, rest, hpre, htr⟩ := hrest _ hph
      refine ⟨by simpa using hlen, fun ph hq => ?_⟩
      rw [List.getElem?_set_eq_of_lt _ (by omega)] at hq
      obtain rfl := Option.some.inj hq
      exact ⟨hlk, ⟨pre, rest, hpre, htr⟩⟩
  | releaseHeld hph hl =>
      have ht0 : t = 0 := by
        have := (List.getElem?_eq_some.mp hph).1; omega
      subst ht0
      rename_i q
      have hold := hrest _ hph
      cases q with
      | none =>
          obtain ⟨hlk, htr⟩ := hold
          refine ⟨by simpa using hlen, fun ph hq => ?_⟩
          rw [List.getElem?_set_eq_of_lt _ (by omega)] at hq
          obtain rfl := Option.some.inj hq
          exact ⟨rfl, htr⟩
      | some e =>
          obtain ⟨hlk, pre, rest, hpre, htr⟩ := hold
          refine ⟨by simpa using hlen, fun ph hq => ?_⟩
          rw [List.getElem?_set_eq_of_lt _ (by omega)] at hq
          obtain rfl := Option.some.inj hq
          exact ⟨rfl, ⟨pre, rest, hpre, htr⟩⟩
  | releaseUnlocked hph hl =>
      rename_i q
      have hold := hrest _ (by
        have ht0 : t = 0 := by
          have := (List.getElem?_eq_some.mp hph).1; omega
        rw [ht0] at hph
        exact hph)
      cases q with
      | none =>
          exact absurd (hl.symm.trans hold.1) (by simp)
      | some e =>
          exact absurd (hl.symm.trans hold.1) (by simp)

/-- `WInv` holds in every state reachable in the single-threaded
`write` scenario. -/
lemma wInv_reaches {p : String} {v : Val} {upd : Bool} {s s' : Sys}
    (h : Reaches s s') (hinv : WInv p v upd s) : WInv p v upd s' := by
  induction h with
  | refl => exact hinv
  | tail hpre hstep ih =>
      obtain ⟨u, hu⟩ := hstep
      exact wInv_step hu ih

/-- C5 (confirmed): in every complete run of `write(p, v, upd)` in
which the lock is acquired (without contention the acquire always
succeeds, and only the success branch can end in `done`), the device
ops happen in exactly this order: first `parameters.set(p, v)`, then
the flush `write()`, then a follow-up `read()` if and only if
`update_immediately_after_write` is true. -/
theorem write_device_op_order (p : String) (v : Val) (upd : Bool)
    (s : Sys) (hr : Reaches (initSys [writeOps p v upd]) s)
    (hdone : s.threads[0]? = some Phase.done) :
    s.trace = (DevOp.set p v :: DevOp.write ::
      (if upd then [DevOp.read] else [])).map
        (fun op => ((0 : Nat), op)) := by
  have hinv := wInv_reaches hr (wInv_init p v upd)
  exact (hinv.2 _ hdone).2

/-- Witness for C5: the complete `write("par", 5, True)` run reaching
`c5fin` performs set, then write, then read. -/
theorem write_device_op_order_witness :
    c5fin.trace = (DevOp.set "par" (Val.num 5) :: DevOp.write ::
      (if true then [DevOp.read] else [])).map
        (fun op => ((0 : Nat), op)) := by
  refine write_device_op_order "par" (Val.num 5) true c5fin ?_ rfl
  refine Relation.ReflTransGen.head ⟨0, Step.acquireOk 0 rfl rfl⟩ ?_
  refine Relation.ReflTransGen.head ⟨0, Step.beginOp 0 rfl⟩ ?_
  refine Relation.ReflTransGen.head ⟨0, Step.endOp 0 rfl⟩ ?_
  refine Relation.ReflTransGen.head ⟨0, Step.beginOp 0 rfl⟩ ?_
  refine Relation.ReflTransGen.head ⟨0, Step.endOp 0 rfl⟩ ?_
  refine Relation.ReflTransGen.head ⟨0, Step.beginOp 0 rfl⟩ ?_
  refine Relation.ReflTransGen.head ⟨0, Step.endOp 0 rfl⟩ ?_
  refine Relation.ReflTransGen.head ⟨0, Step.runDone 0 rfl⟩ ?_
  have hrel : Step 0
      { lock := true, owner := some 0, threads := [Phase.atRelease none],
        trace := [(0, DevOp.set "par" (Val.num 5)), (0, DevOp.write),
          (0, DevOp.read)] }
      c5fin :=
    Step.releaseHeld 0
      (s := { lock := true, owner := some 0,
              threads := [Phase.atRelease none],
              trace := [(0, DevOp.set "par" (Val.num 5)),
                (0, DevOp.write), (0, DevOp.read)] })
      (q := none) rfl rfl
  exact Relation.ReflTransGen.single ⟨0, hrel⟩
